import Mathlib

/-!
# Verification of the tastypie-client field/resource object model

This file is a shallow embedding, in Lean 4, of the parts of the
`tastypie-client-generator` repository that the specification's claims are
about:

* `tastypieclient/fields.py` — the field descriptors (`Field`, `UUIDField`,
  `CharField`, `BooleanField`, `DateTimeField`, `DeferredField`,
  `ToManyField`, `DeferredList`);
* `tastypie-client/client_builder.py` — the code generator (`Field.write_field`,
  `Schema.field_list`, `Resource._write_generated_source`,
  `ClientBuilder.generate_client`, `CodeGeneratorBackend`).

Python's mutable object state is made explicit: an owning resource instance is
a `base_url` together with its `__dict__` (an association list), a descriptor
object is a record, and every operation returns the updated records next to
its result.  Exceptions become an explicit `Err` value; network I/O becomes a
function `String → String` in an `Env` together with the list of URLs fetched
by each operation.  External collaborators (`urlparse`/`urljoin`, `dateutil`,
`uuid.UUID`, `unicode`) are modelled just as far as the embedded code
exercises them: absolute `scheme://host/path` URLs and root-relative paths,
scalar text conversion, and canonical hex UUID strings.
-/

/-- Python exceptions raised by the embedded code.  The source raises
`ValueError` for every validation failure (the spec calls these
`ValidationError`); `AttributeError` for a missing attribute; `TypeError`
for calling `None`; `IndexError` / `KeyError` for bad subscripts. -/
inductive Err where
  | valueError
  | attributeError
  | typeError
  | indexError
  | keyError
deriving DecidableEq, Repr

/-- A generated resource class as the relation resolver sees it: its name and
its `list_endpoint` class constant (`resources.py` / generated code). -/
structure ResourceClass where
  name : String
  list_endpoint : String
deriving DecidableEq, Repr

/-- A materialized related resource instance:
`self.related_resource_class(base_url=instance.base_url, **data)` in
`DeferredField.__get__` is modelled as the record of the chosen class, the
`base_url` passed along, and the fetched response body `data`. -/
structure RInstance where
  cls : ResourceClass
  base_url : String
  data : String
deriving DecidableEq, Repr

/-- The keyword options of `Field.__init__` in `fields.py`. -/
structure FieldOpts where
  blank : Bool
  nullable : Bool
  readonly : Bool
  unique : Bool
  required : Bool
  help_text : String
deriving DecidableEq, Repr

/-- `Field(…)` with all defaults: `blank=False, nullable=False,
readonly=False, unique=False, required=False, help_text=""`. -/
def defaultOpts : FieldOpts := ⟨false, false, false, false, false, ""⟩

/-- The mutable state of one `DeferredField` descriptor object
(`fields.py`, `DeferredField.__init__`): its `Field` options, its `name`,
`self.related_resource_class`, and `self.instance` (the resolved-instance
cache, called `inst` here because `instance` is a Lean keyword).  Note that in
the source this record lives on the descriptor object itself, which Python
shares between all owning instances of the resource class. -/
structure DeferredField where
  opts : FieldOpts
  name : String
  related_resource_class : Option ResourceClass
  inst : Option RInstance
deriving DecidableEq, Repr

/-- Python values as stored in a resource instance's `__dict__`.
`uuid s` is a `uuid.UUID` shown in canonical form `s`; `datetime s` is the
`dateutil`-parsed value of the string `s`; `deflist` is a `DeferredList`
(which holds its `DeferredField` elements). -/
inductive PyVal where
  | none
  | bool (b : Bool)
  | int (n : Int)
  | str (s : String)
  | uuid (s : String)
  | datetime (s : String)
  | list (xs : List PyVal)
  | deflist (fields : List DeferredField)

/-- `value is None`. -/
def PyVal.isNone : PyVal → Bool
  | PyVal.none => true
  | _ => false

/-- `str.lower()`. -/
def pyLower (s : String) : String := String.mk (s.data.map Char.toLower)

/-- `str.startswith(t)`. -/
def pyStartsWith (s t : String) : Bool := t.data.isPrefixOf s.data

/-- `str.endswith(t)`. -/
def pyEndsWith (s t : String) : Bool := t.data.isSuffixOf s.data

/-- Break a character list at the first occurrence of `sep`: the part
before it and the part after it, or nothing when `sep` does not occur.
This is what `s.split(sep, 1)` computes, and all `urlparse` behaviour the
client exercises needs only this first break. -/
def breakOnSeq (sep : List Char) : List Char → Option (List Char × List Char)
  | [] => Option.none
  | c :: rest =>
    if sep.isPrefixOf (c :: rest) then some ([], (c :: rest).drop sep.length)
    else
      match breakOnSeq sep rest with
      | some (pre2, post) => some (c :: pre2, post)
      | Option.none => Option.none

/-- `s.split(sep)` for a single-character separator (the only shape
`str.replace` is called with in the generator). -/
def splitChar (sep : Char) : List Char → List (List Char)
  | [] => [[]]
  | c :: rest =>
    if c = sep then [] :: splitChar sep rest
    else
      match splitChar sep rest with
      | [] => [[c]]
      | g :: gs => (c :: g) :: gs

/-- `s.replace(pat, rep)` for a one-character `pat`: split on `pat`, join
with `rep`. -/
def pyReplace1 (s : String) (pat : Char) (rep : String) : String :=
  String.intercalate rep ((splitChar pat s.data).map String.mk)

/-- Lexicographic comparison of character lists by code point, the order
Python's `sorted` uses on strings. -/
def charListLe : List Char → List Char → Bool
  | [], _ => true
  | _ :: _, [] => false
  | a :: as, b :: bs =>
      if a < b then true else if b < a then false else charListLe as bs

/-- `a <= b` on strings, as Python's `sorted(…, key=itemgetter(0))`
compares field names. -/
def strLe (a b : String) : Bool := charListLe a.data b.data

/-- Python truthiness (`bool(value)`) for the embedded values.  A
`DeferredList` delegates to its overridden `__len__`. -/
def pyTruthy : PyVal → Bool
  | PyVal.none => false
  | PyVal.bool b => b
  | PyVal.int n => decide (n ≠ 0)
  | PyVal.str s => decide (s ≠ "")
  | PyVal.uuid _ => true
  | PyVal.datetime _ => true
  | PyVal.list xs => !xs.isEmpty
  | PyVal.deflist fs => !fs.isEmpty

/-- `unicode(value)` for the scalar values the fields convert; containers
(never reached through the embedded call sites) get a fixed rendering. -/
def pyUnicode : PyVal → String
  | PyVal.none => "None"
  | PyVal.bool true => "True"
  | PyVal.bool false => "False"
  | PyVal.int n => toString n
  | PyVal.str s => s
  | PyVal.uuid s => s
  | PyVal.datetime s => s
  | PyVal.list _ => "[...]"
  | PyVal.deflist _ => "DeferredList(...)"

/-- `instance.__dict__[self.name] is not None` guarded by
`self.name in instance.__dict__` (the readonly test in `Field.__set__`). -/
def storedNonNull : Option PyVal → Bool
  | some s => !s.isNone
  | Option.none => false

/-- `Field.__set__` (fields.py:126-182): reject `None` on a non-nullable
field, reject overwriting a non-null value of a readonly field, otherwise
store the value.  The slot is `instance.__dict__.get(self.name)`; on success
the returned value is what gets stored, on error nothing is stored.
(The blank check in the source is commented out.) -/
def Field.set (o : FieldOpts) (slot : Option PyVal) (v : PyVal) :
    Except Err PyVal :=
  if o.nullable = false ∧ v.isNone = true then Except.error Err.valueError
  else if o.readonly = true ∧ storedNonNull slot = true then
    Except.error Err.valueError
  else Except.ok v

/-- A hexadecimal digit, as `uuid.UUID` accepts them. -/
def hexDigit (c : Char) : Bool :=
  c.isDigit || ('a' ≤ c && c ≤ 'f') || ('A' ≤ c && c ≤ 'F')

/-- The hex content of a UUID string with its dashes removed. -/
def uuidStrip (s : String) : String := String.mk (s.data.filter (· ≠ '-'))

/-- Whether `uuid.UUID(s)` succeeds, modelled for the canonical dashed or
undashed 32-hex-digit forms (the shapes the schema convention produces). -/
def validUUID (s : String) : Bool :=
  decide ((uuidStrip s).length = 32) && (uuidStrip s).data.all hexDigit

/-- The canonical rendering of the `uuid.UUID` built from `s`. -/
def normUUID (s : String) : String :=
  let t := pyLower (uuidStrip s)
  t.take 8 ++ "-" ++ (t.drop 8).take 4 ++ "-" ++ (t.drop 12).take 4 ++ "-" ++
    (t.drop 16).take 4 ++ "-" ++ t.drop 20

/-- `UUIDField.__set__` (fields.py:185-194): falsy values and `uuid.UUID`
instances go straight to `Field.__set__`; strings are converted with
`uuid.UUID(value)` (a `ValueError` if ill-formed); anything else is a
`ValueError`. -/
def UUIDField.set (o : FieldOpts) (slot : Option PyVal) (v : PyVal) :
    Except Err PyVal :=
  if pyTruthy v = false then Field.set o slot v
  else
    match v with
    | PyVal.uuid _ => Field.set o slot v
    | PyVal.str s =>
        if validUUID s then Field.set o slot (PyVal.uuid (normUUID s))
        else Except.error Err.valueError
    | _ => Except.error Err.valueError

/-- `CharField.__set__` (fields.py:197-201): a falsy value becomes `''`
first, then `unicode(value)` is stored through `Field.__set__`.  Note the
`None` replacement happens before the base class's null check ever runs. -/
def CharField.set (o : FieldOpts) (slot : Option PyVal) (v : PyVal) :
    Except Err PyVal :=
  let v := if pyTruthy v = false then PyVal.str "" else v
  Field.set o slot (PyVal.str (pyUnicode v))

/-- `BooleanField.__set__` (fields.py:204-212).  For a textual value the
source runs `if value.lower() == 'false': value = False` and then, on the
next line at the same indentation, unconditionally `value = True`: the
`False` is dead the moment it is assigned, so every string coerces to
`True`.  The dead store is kept here as `_dead` to mirror the source. -/
def BooleanField.set (o : FieldOpts) (slot : Option PyVal) (v : PyVal) :
    Except Err PyVal :=
  let v := match v with
    | PyVal.str s =>
        let _dead := if pyLower s = "false" then PyVal.bool false else PyVal.str s
        PyVal.bool true
    | PyVal.none => PyVal.none
    | w => PyVal.bool (pyTruthy w)
  Field.set o slot v

/-- `dateutil`'s `date_parser.parse` as the source uses it: a string parses
(modelled as tagging the string), a non-string raises `AttributeError`
inside the parser, which `DateTimeField.__set__` turns into a `ValueError`. -/
def date_parse : PyVal → Except Err PyVal
  | PyVal.str s => Except.ok (PyVal.datetime s)
  | _ => Except.error Err.attributeError

/-- `DateTimeField.__set__` (fields.py:215-223): truthy values are parsed
(an `AttributeError` from the parser becomes `ValueError`); falsy values go
through unchanged. -/
def DateTimeField.set (o : FieldOpts) (slot : Option PyVal) (v : PyVal) :
    Except Err PyVal :=
  if pyTruthy v = true then
    match date_parse v with
    | Except.ok d => Field.set o slot d
    | Except.error _ => Except.error Err.valueError
  else Field.set o slot v

/-- The `urlparse(s).netloc` test of `DeferredField.__get__`: the embedded
URL model covers absolute `scheme://host/path` URLs (netloc present) and
root-relative `/path` references (netloc absent). -/
def hasNetloc (s : String) : Bool := (breakOnSeq "://".data s.data).isSome

/-- `scheme://netloc` of an absolute URL: everything before the first `/`
that follows the first `://`. -/
def schemeHost (s : String) : String :=
  match breakOnSeq "://".data s.data with
  | some (scheme, rest) =>
      String.mk scheme ++ "://" ++ String.mk (rest.takeWhile (· ≠ '/'))
  | Option.none => ""

/-- `urljoin(base, rel)` for the shapes the client produces: an absolute
reference is kept, a root-relative one is resolved against `base`'s
scheme and host. -/
def urljoin (base rel : String) : String :=
  if hasNetloc rel then rel else schemeHost base ++ rel

/-- `urlparse(s).path`: strip the query (everything from the first `?`),
then, when a `scheme://netloc` is present, keep the part from the first
`/` after the netloc; otherwise the whole remainder is the path. -/
def urlPath (s : String) : String :=
  let noQuery := s.data.takeWhile (· ≠ '?')
  match breakOnSeq "://".data noQuery with
  | some (_, rest) => String.mk (rest.dropWhile (· ≠ '/'))
  | Option.none => String.mk noQuery

/-- `instance.__dict__[k] = v`. -/
def dictInsert (d : List (String × PyVal)) (k : String) (v : PyVal) :
    List (String × PyVal) :=
  match d with
  | [] => [(k, v)]
  | (k2, v2) :: rest =>
      if k2 = k then (k, v) :: rest else (k2, v2) :: dictInsert rest k v

/-- One owning resource instance at runtime (`resources.py`):
its `base_url` and its `__dict__`. -/
structure Owner where
  base_url : String
  dict : List (String × PyVal)

/-- The registered `Resource` subclass hierarchy, as
`Resource.__subclasses__()` exposes it: each node is a generated class with
its direct subclasses in registration order. -/
inductive ClassTree where
  | node (c : ResourceClass) (children : List ClassTree)

/-- The class at the root of a subtree. -/
def ClassTree.root : ClassTree → ResourceClass
  | ClassTree.node c _ => c

/-- The direct subclasses of a subtree's root. -/
def ClassTree.children : ClassTree → List ClassTree
  | ClassTree.node _ ch => ch

mutual
/-- Number of classes in a subtree (termination measure). -/
def treeSize : ClassTree → Nat
  | ClassTree.node _ ch => 1 + forestSize ch
/-- Number of classes in a forest (termination measure). -/
def forestSize : List ClassTree → Nat
  | [] => 0
  | t :: ts => treeSize t + forestSize ts
end

/-- The loop of `DeferredField.get_related_resource_class`
(fields.py:307-325): scan the worklist `subclasses`; a class whose
`list_endpoint` is a prefix of the URL path is returned; otherwise its own
subclasses are appended to the end of the worklist
(`subclasses.extend(subclass.__subclasses__())`) and the scan continues.
Each iteration consumes one registered class, so the loop runs at most
`forestSize` times; that bound is passed explicitly as the first argument
to keep the recursion structural (`scanAux_fuel` below shows any
sufficiently large bound computes the same answer). -/
def scanAux (path : String) : Nat → List ClassTree → Option ResourceClass
  | 0, _ => Option.none
  | _, [] => Option.none
  | fuel + 1, ClassTree.node c ch :: rest =>
      if pyStartsWith path c.list_endpoint then some c
      else scanAux path fuel (rest ++ ch)

/-- `DeferredField.get_related_resource_class(uri)` (fields.py:307-325). -/
def get_related_resource_class (registry : List ClassTree) (uri : String) :
    Option ResourceClass :=
  scanAux (urlPath uri) (forestSize registry) registry

/-- The order in which the scan loop visits classes: registration order
level by level, a class always ahead of its own (later-registered)
subclasses.  Same explicit iteration bound as `scanAux`. -/
def flattenAux : Nat → List ClassTree → List ResourceClass
  | 0, _ => []
  | _, [] => []
  | fuel + 1, ClassTree.node c ch :: rest => c :: flattenAux fuel (rest ++ ch)

/-- The full visit order of the registry scan. -/
def flattenForest (queue : List ClassTree) : List ResourceClass :=
  flattenAux (forestSize queue) queue

mutual
/-- All classes of a subtree (root first, then descendants). -/
def treeElems : ClassTree → List ResourceClass
  | ClassTree.node c ch => c :: forestElems ch
/-- All classes of a forest. -/
def forestElems : List ClassTree → List ResourceClass
  | [] => []
  | t :: ts => treeElems t ++ forestElems ts
end

mutual
/-- All subtrees of a tree, the tree itself included. -/
def subtreesT : ClassTree → List ClassTree
  | ClassTree.node c ch => ClassTree.node c ch :: subtreesF ch
/-- All subtrees of the trees of a forest. -/
def subtreesF : List ClassTree → List ClassTree
  | [] => []
  | t :: ts => subtreesT t ++ subtreesF ts
end

/-- The execution environment of the lazy relation resolver: the registered
class hierarchy and the HTTP collaborator (`requests.get(url).content`,
composed with `json.loads`, is `http url`). -/
structure Env where
  registry : List ClassTree
  http : String → String

/-- What a field `__get__` returns: either a raw stored value (for the
falsy/unset cases) or a materialized related instance. -/
inductive GetVal where
  | raw (v : PyVal)
  | res (r : RInstance)

/-- The URL actually fetched for a stored reference `u`: absolute references
go out unchanged, others are joined to the owner's `base_url`
(fields.py:335-338). -/
def resolveUrl (o : Owner) (u : String) : String :=
  if hasNetloc u then u else urljoin o.base_url u

/-- `DeferredField.__get__` (fields.py:327-346).  Returns the result, the
descriptor's state after the call, and the list of URLs fetched.  A cached
`self.instance` is returned with no fetch; a missing dict entry is an
`AttributeError`; a falsy stored value is returned raw; otherwise the one
resolved URL is fetched, the related class is taken from
`self.related_resource_class` or inferred (and cached) from the registry,
and the materialized instance is cached in `self.instance`.  When the
inference finds no class, `self.related_resource_class(...)` calls `None`:
a `TypeError`, after the fetch already happened. -/
def DeferredField.get (env : Env) (f : DeferredField) (o : Owner) :
    Except Err GetVal × DeferredField × List String :=
  match f.inst with
  | some r => (Except.ok (GetVal.res r), f, [])
  | Option.none =>
    match o.dict.lookup f.name with
    | Option.none => (Except.error Err.attributeError, f, [])
    | some v =>
      if pyTruthy v = false then (Except.ok (GetVal.raw v), f, [])
      else
        match v with
        | PyVal.str url =>
          let value := resolveUrl o url
          let data := env.http value
          let rrc := match f.related_resource_class with
            | some c => some c
            | Option.none => get_related_resource_class env.registry value
          match rrc with
          | Option.none =>
              (Except.error Err.typeError,
               ⟨f.opts, f.name, Option.none, Option.none⟩, [value])
          | some c =>
              (Except.ok (GetVal.res ⟨c, o.base_url, data⟩),
               ⟨f.opts, f.name, some c, some ⟨c, o.base_url, data⟩⟩, [value])
        | _ => (Except.error Err.attributeError, f, [])

/-- The class-resolution step of `DeferredField.__get__`
(fields.py:341-343): the declared `self.related_resource_class` when one is
set, otherwise the registry inference `get_related_resource_class` on the
resolved URL. -/
def resolveClass (env : Env) (o : Owner) (fld : DeferredField) (u : String) :
    Option ResourceClass :=
  match fld.related_resource_class with
  | some c0 => some c0
  | Option.none => get_related_resource_class env.registry (resolveUrl o u)

/-- `DeferredField.__delete__` (fields.py:356-361): clear only the
resolved-instance cache. -/
def DeferredField.clearCache (f : DeferredField) : DeferredField :=
  ⟨f.opts, f.name, f.related_resource_class, Option.none⟩

/-- `DeferredField.__set__` (fields.py:348-354): a non-string is a
`ValueError`; otherwise the cache is cleared (`self.__delete__`) and the URL
is stored through `Field.__set__`. -/
def DeferredField.set (f : DeferredField) (o : Owner) (v : PyVal) :
    Except Err Unit × DeferredField × Owner :=
  match v with
  | PyVal.str s =>
    let f2 := f.clearCache
    match Field.set f2.opts (o.dict.lookup f2.name) (PyVal.str s) with
    | Except.error e => (Except.error e, f2, o)
    | Except.ok stored =>
        (Except.ok (), f2, ⟨o.base_url, dictInsert o.dict f2.name stored⟩)
  | _ => (Except.error Err.valueError, f, o)

/-- The fresh `DeferredField(self.related_resource_class)` built for element
`count` of a `ToManyField` value, with the name
`"_deferred_%s_%s" % (self.name, count)` (fields.py:281-283). -/
def mkDeferred (rrc : Option ResourceClass) (tmName : String) (i : Nat) :
    DeferredField :=
  ⟨defaultOpts, "_deferred_" ++ tmName ++ "_" ++ toString i, rrc, Option.none⟩

/-- The state of a `ToManyField` descriptor (fields.py:256-270); its
`base_url` bookkeeping is not modelled because nothing reads it. -/
structure ToManyField where
  opts : FieldOpts
  name : String
  related_resource_class : Option ResourceClass

/-- The `for count, resource_url in enumerate(value)` loop of
`ToManyField.__set__` (fields.py:280-285): build one `DeferredField` per
URL, `__set__` it on the owner, collect the descriptors. -/
def ToManyField.setLoop (tm : ToManyField) (o : Owner) (urls : List PyVal)
    (i : Nat) : Except Err (List DeferredField) × Owner :=
  match urls with
  | [] => (Except.ok [], o)
  | u :: rest =>
    match DeferredField.set (mkDeferred tm.related_resource_class tm.name i) o u with
    | (Except.error e, _, o2) => (Except.error e, o2)
    | (Except.ok _, fld2, o2) =>
      match ToManyField.setLoop tm o2 rest (i + 1) with
      | (Except.error e, o3) => (Except.error e, o3)
      | (Except.ok flds, o3) => (Except.ok (fld2 :: flds), o3)

/-- `ToManyField.__set__` (fields.py:272-287): a falsy value is stored
directly through `Field.__set__`; a non-list is a `ValueError`; a list of
URLs becomes a `DeferredList` of per-element `DeferredField`s, stored
through `Field.__set__`. -/
def ToManyField.set (tm : ToManyField) (o : Owner) (v : PyVal) :
    Except Err Unit × Owner :=
  if pyTruthy v = false then
    match Field.set tm.opts (o.dict.lookup tm.name) v with
    | Except.error e => (Except.error e, o)
    | Except.ok stored =>
        (Except.ok (), ⟨o.base_url, dictInsert o.dict tm.name stored⟩)
  else
    match v with
    | PyVal.list urls =>
      match ToManyField.setLoop tm o urls 0 with
      | (Except.error e, o2) => (Except.error e, o2)
      | (Except.ok flds, o2) =>
        match Field.set tm.opts (o2.dict.lookup tm.name) (PyVal.deflist flds) with
        | Except.error e => (Except.error e, o2)
        | Except.ok stored =>
            (Except.ok (), ⟨o2.base_url, dictInsert o2.dict tm.name stored⟩)
    | _ => (Except.error Err.valueError, o)

/-- `DeferredList.__getitem__` with an integer index (fields.py:240-246,
`else` branch): delegate to that one element's `__get__`.  An out-of-range
index is an `IndexError`.  Returns the result, the updated element list, and
the fetched URLs. -/
def DeferredList.getitem (env : Env) (dl : List DeferredField) (o : Owner)
    (i : Nat) : Except Err GetVal × List DeferredField × List String :=
  match dl[i]? with
  | Option.none => (Except.error Err.indexError, dl, [])
  | some fld =>
    match DeferredField.get env fld o with
    | (r, fld2, fs) => (r, dl.set i fld2, fs)

/-- The slice branch of `DeferredList.__getitem__` (fields.py:241-243) is a
list comprehension calling `__get__` on each element of the sliced
sub-list, left to right; an exception aborts the comprehension. -/
def resolveAll (env : Env) (o : Owner) :
    List DeferredField → Except Err (List GetVal) × List DeferredField × List String
  | [] => (Except.ok [], [], [])
  | fld :: rest =>
    match DeferredField.get env fld o with
    | (Except.error e, fld2, fs) => (Except.error e, fld2 :: rest, fs)
    | (Except.ok v, fld2, fs) =>
      match resolveAll env o rest with
      | (Except.error e, rest2, fs2) => (Except.error e, fld2 :: rest2, fs ++ fs2)
      | (Except.ok vs, rest2, fs2) => (Except.ok (v :: vs), fld2 :: rest2, fs ++ fs2)

/-- `DeferredList.__getitem__` with a slice `[a:b]` (non-negative bounds, the
shape the spec's scenarios use): resolve exactly the elements of
`deferred_fields[a:b]`, in order. -/
def DeferredList.getslice (env : Env) (dl : List DeferredField) (o : Owner)
    (a b : Nat) : Except Err (List GetVal) × List DeferredField × List String :=
  match resolveAll env o ((dl.drop a).take (b - a)) with
  | (r, mid2, fs) => (r, dl.take a ++ mid2 ++ (dl.drop a).drop (b - a), fs)

/-! ## The code generator (`tastypie-client/client_builder.py`) -/

/-- One raw field declaration of a fetched schema document, as
`client_builder.Field.__init__` records it (the unused `default` is
omitted). -/
structure GenField where
  name : String
  type : String
  related_type : Option String
  blank : Bool
  nullable : Bool
  readonly : Bool
  unique : Bool
  help_text : String
deriving DecidableEq, Repr

/-- The `field_types` table of `Field.write_field`
(client_builder.py:149-155). -/
def field_types : List (String × String) :=
  [("boolean", "BooleanField"), ("string", "CharField"),
   ("to_one", "DeferredField"), ("to_many", "ToManyField"),
   ("datetime", "DateTimeField")]

/-- The classifier of `Field.write_field` (client_builder.py:156-161): a
name ending in `uuid` forces `UUIDField`; a `related` type is disambiguated
through `related_type`; otherwise the declared type is looked up.  A missing
table entry is Python's `KeyError`, modelled as `Option.none`. -/
def fieldClsFor (f : GenField) : Option String :=
  if pyEndsWith f.name "uuid" then some "UUIDField"
  else if f.type = "related" then
    match f.related_type with
    | some rt => field_types.lookup rt
    | Option.none => Option.none
  else field_types.lookup f.type

/-- `CodeGeneratorBackend.write` (client_builder.py:192-193): four spaces of
indentation per level, a trailing newline. -/
def cgLine (level : Nat) (s : String) : String :=
  String.mk (List.replicate (4 * level) ' ') ++ s ++ "\n"

/-- `self.help_text.replace('"', '\\"')` (client_builder.py:167-168). -/
def escapeHelp (s : String) : String := pyReplace1 s '"' "\\\""

/-- `repr` of a Python bool, as `"%s" %` renders it. -/
def pyBool : Bool → String
  | true => "True"
  | false => "False"

/-- `Field.write_field` (client_builder.py:146-173): the six generated lines
for one field declaration, or a `KeyError` when the classifier finds no
field class. -/
def Field.write_field (f : GenField) (level : Nat) : Except Err (List String) :=
  match fieldClsFor f with
  | Option.none => Except.error Err.keyError
  | some cls => Except.ok
      [cgLine level (f.name ++ " = " ++ cls ++ "("),
       cgLine (level + 1) ("help_text=\"" ++ escapeHelp f.help_text ++ "\","),
       cgLine (level + 1) ("blank=" ++ pyBool f.blank ++ ","),
       cgLine (level + 1) ("nullable=" ++ pyBool f.nullable ++ ","),
       cgLine (level + 1) ("readonly=" ++ pyBool f.readonly ++ ","),
       cgLine (level + 1) ("unique=" ++ pyBool f.unique ++ ")")]

/-- `Schema.field_list` (client_builder.py:124-126):
`sorted(self.fields.items(), key=itemgetter(0))` — a stable sort of the
field mapping's items by field name. -/
def field_list (fields : List (String × GenField)) : List (String × GenField) :=
  List.insertionSort (fun p q => strLe p.1 q.1 = true) fields

/-- One `ResourceSchema` as the generator consumes it: the entry-point name,
the class constants, and the (unordered) field mapping items. -/
structure GenSchema where
  name : String
  list_endpoint : String
  default_format : String
  default_limit : Int
  fields : List (String × GenField)

/-- Python's `str.title()`: the first letter of every alphabetic run is
upper-cased, the rest lower-cased. -/
def pyTitle (s : String) : String :=
  (s.data.foldl
    (fun (acc : List Char × Bool) c =>
      if c.isAlpha then
        (acc.1 ++ [if acc.2 then c.toLower else c.toUpper], true)
      else (acc.1 ++ [c], false))
    ([], false)).1.asString

/-- `self.name.title().replace("_", "")` (client_builder.py:95-96). -/
def classNameOf (name : String) : String := pyReplace1 (pyTitle name) '_' ""

/-- The `for field_name, field in self.schema.field_list` loop of
`Resource._write_fields` (client_builder.py:88-91), aborting at the first
`KeyError` like the source does. -/
def writeFieldsLoop : List (String × GenField) → Except Err (List String)
  | [] => Except.ok []
  | (_, fld) :: rest =>
    match Field.write_field fld 1 with
    | Except.error e => Except.error e
    | Except.ok l1 =>
      match writeFieldsLoop rest with
      | Except.error e => Except.error e
      | Except.ok l2 => Except.ok (l1 ++ l2)

/-- `Resource._write_generated_source` followed by the two blank lines of
`ClientBuilder._write_resource` (client_builder.py:45-49, 93-107): the class
line, the indented class constants (`_write_class_constants`, including its
trailing indented empty line), the field declarations in `field_list` order,
then two top-level blank lines. -/
def writeResource (r : GenSchema) : Except Err (List String) :=
  match writeFieldsLoop (field_list r.fields) with
  | Except.error e => Except.error e
  | Except.ok fieldLines => Except.ok
      ([cgLine 0 ("class " ++ classNameOf r.name ++ "(Resource):"),
        cgLine 1 ("list_endpoint = '" ++ r.list_endpoint ++ "'"),
        cgLine 1 ("default_format = '" ++ r.default_format ++ "'"),
        cgLine 1 ("default_limit = " ++ toString r.default_limit),
        cgLine 1 ""] ++ fieldLines ++ [cgLine 0 "", cgLine 0 ""])

/-- `ClientBuilder._write_import_block` (client_builder.py:34-43). -/
def importBlock : List String :=
  [cgLine 0 "from tastypieclient.fields import CharField",
   cgLine 0 "from tastypieclient.fields import BooleanField",
   cgLine 0 "from tastypieclient.fields import DateTimeField",
   cgLine 0 "from tastypieclient.fields import DeferredField",
   cgLine 0 "from tastypieclient.fields import ToManyField",
   cgLine 0 "from tastypieclient.fields import UUIDField",
   cgLine 0 "from tastypieclient.resources import Resource",
   cgLine 0 ""]

/-- The module text written by `ClientBuilder.generate_client`
(client_builder.py:58-61): the import block, then each resource in turn.  A
`KeyError` while writing aborts the run. -/
def moduleText (resources : List GenSchema) : Except Err String :=
  match resources.foldr
      (fun r acc =>
        match writeResource r, acc with
        | Except.ok l, Except.ok rest => Except.ok (l ++ rest)
        | Except.error e, _ => Except.error e
        | _, Except.error e => Except.error e)
      (Except.ok []) with
  | Except.error e => Except.error e
  | Except.ok l => Except.ok (String.join (importBlock ++ l))

/-- `ClientBuilder.generate_client(name)` (client_builder.py:51-61) over an
already-fetched `ResourceSchema` set: the output filename
`'%s.py.%s' % (name, timestamp)` — the only place the generation timestamp
appears — and the module text. -/
def generate_client (name : String) (timestamp : String)
    (resources : List GenSchema) : String × Except Err String :=
  (name ++ ".py." ++ timestamp, moduleText resources)

/-- `x` occurs in `l` strictly before some later occurrence of `y`. -/
def precedesIn (x y : ResourceClass) (l : List ResourceClass) : Prop :=
  ∃ l1 l2, l = l1 ++ x :: l2 ∧ y ∈ l2

/-! ## Concrete demonstration data

A two-class registry (`Blag`, `Post`), a deterministic HTTP collaborator
that answers every URL with a distinct body, one toOne descriptor named
`author`, and two owning instances whose `author` slots hold different
URLs.  Used by the concrete theorems and witnesses below. -/

/-- The registered `Blag` resource class. -/
def blagCls : ResourceClass := ⟨"Blag", "/api/v1/blag/"⟩

/-- The registered `Post` resource class. -/
def postCls : ResourceClass := ⟨"Post", "/api/v1/post/"⟩

/-- Registry with `Blag` and `Post` registered at top level, and an HTTP
collaborator whose response body names the URL it was asked for. -/
def demoEnv : Env :=
  ⟨[ClassTree.node blagCls [], ClassTree.node postCls []],
   fun u => "body of " ++ u⟩

/-- A fresh (never-resolved) `author` toOne descriptor with no declared
related class. -/
def demoField : DeferredField := ⟨defaultOpts, "author", Option.none, Option.none⟩

/-- First owning instance: its `author` slot holds `/api/v1/blag/1/`. -/
def demoOwner1 : Owner := ⟨"http://host", [("author", PyVal.str "/api/v1/blag/1/")]⟩

/-- Second owning instance: its `author` slot holds `/api/v1/blag/2/`. -/
def demoOwner2 : Owner := ⟨"http://host", [("author", PyVal.str "/api/v1/blag/2/")]⟩

/-- The instance materialized by resolving `/api/v1/blag/1/`. -/
def demoResolved1 : RInstance :=
  ⟨blagCls, "http://host", "body of http://host/api/v1/blag/1/"⟩

/-- The instance materialized by resolving `/api/v1/blag/2/`. -/
def demoResolved2 : RInstance :=
  ⟨blagCls, "http://host", "body of http://host/api/v1/blag/2/"⟩

/-- The `author` descriptor after a resolution of `/api/v1/blag/1/`:
class inferred and instance cached — state held on the descriptor object,
which Python shares between every owning instance. -/
def demoField1 : DeferredField :=
  ⟨defaultOpts, "author", some blagCls, some demoResolved1⟩

/-- The `author` descriptor after a re-`__set__`: the class stays pinned,
the instance cache is cleared. -/
def demoField2 : DeferredField := ⟨defaultOpts, "author", some blagCls, Option.none⟩

/-- `demoOwner1` after its `author` slot is re-set to `/api/v1/blag/2/`. -/
def demoOwner1b : Owner := ⟨"http://host", [("author", PyVal.str "/api/v1/blag/2/")]⟩

/-- A `posts` toMany descriptor with no declared related class — the shape
the generator emits, resolved through registry inference. -/
def tmDemo : ToManyField := ⟨defaultOpts, "posts", Option.none⟩

/-- An owning instance before its `posts` field is bound. -/
def tmOwner0 : Owner := ⟨"http://host", []⟩

/-- The per-element descriptors built by binding `posts` to two URLs: each
is pending with no declared class, so each read infers its class from the
registry. -/
def tmFields : List DeferredField :=
  [⟨defaultOpts, "_deferred_posts_0", Option.none, Option.none⟩,
   ⟨defaultOpts, "_deferred_posts_1", Option.none, Option.none⟩]

/-- The owning instance after `posts` is bound to
`["/api/v1/post/1/", "/api/v1/post/2/"]`. -/
def tmOwner1 : Owner :=
  ⟨"http://host",
   [("_deferred_posts_0", PyVal.str "/api/v1/post/1/"),
    ("_deferred_posts_1", PyVal.str "/api/v1/post/2/"),
    ("posts", PyVal.deflist tmFields)]⟩

/-- A raw `string` field declaration named `alpha` (generator witness
data). -/
def genA : GenField := ⟨"alpha", "string", Option.none, false, false, false, false, ""⟩

/-- A raw `boolean` field declaration named `beta` (generator witness
data). -/
def genB : GenField := ⟨"beta", "boolean", Option.none, false, false, false, false, ""⟩

/-! ## Registry-walk lemmas -/

theorem forestSize_append (a b : List ClassTree) :
    forestSize (a ++ b) = forestSize a + forestSize b := by
  induction a with
  | nil => simp [forestSize]
  | cons t ts ih => simp [forestSize, ih]; omega


/-- A forest of size zero is empty. -/
theorem forestSize_eq_zero {q : List ClassTree} (h : forestSize q = 0) :
    q = [] := by
  cases q with
  | nil => rfl
  | cons t ts =>
    cases t with
    | node c ch => simp [forestSize, treeSize] at h

/-- Any two sufficient iteration bounds give the scan loop the same
answer. -/
theorem scanAux_fuel (path : String) :
    ∀ f1 f2 q, forestSize q ≤ f1 → forestSize q ≤ f2 →
      scanAux path f1 q = scanAux path f2 q := by
  intro f1
  induction f1 with
  | zero =>
    intro f2 q h1 h2
    have hq : q = [] := forestSize_eq_zero (Nat.le_zero.mp h1)
    subst hq
    cases f2 <;> rfl
  | succ f ih =>
    intro f2 q h1 h2
    cases q with
    | nil => cases f2 <;> rfl
    | cons t rest =>
      cases t with
      | node c ch =>
        have hsz : forestSize (ClassTree.node c ch :: rest) =
            1 + forestSize ch + forestSize rest := by
          simp [forestSize, treeSize]
        cases f2 with
        | zero => omega
        | succ f2' =>
          show (if pyStartsWith path c.list_endpoint then some c
                else scanAux path f (rest ++ ch)) =
               (if pyStartsWith path c.list_endpoint then some c
                else scanAux path f2' (rest ++ ch))
          by_cases hp : pyStartsWith path c.list_endpoint = true
          · simp [hp]
          · simp only [hp]
            have hra : forestSize (rest ++ ch) =
                forestSize rest + forestSize ch := forestSize_append rest ch
            exact ih f2' (rest ++ ch) (by omega) (by omega)

/-- Any two sufficient iteration bounds give the same visit order. -/
theorem flattenAux_fuel :
    ∀ f1 f2 q, forestSize q ≤ f1 → forestSize q ≤ f2 →
      flattenAux f1 q = flattenAux f2 q := by
  intro f1
  induction f1 with
  | zero =>
    intro f2 q h1 h2
    have hq : q = [] := forestSize_eq_zero (Nat.le_zero.mp h1)
    subst hq
    cases f2 <;> rfl
  | succ f ih =>
    intro f2 q h1 h2
    cases q with
    | nil => cases f2 <;> rfl
    | cons t rest =>
      cases t with
      | node c ch =>
        have hsz : forestSize (ClassTree.node c ch :: rest) =
            1 + forestSize ch + forestSize rest := by
          simp [forestSize, treeSize]
        cases f2 with
        | zero => omega
        | succ f2' =>
          show c :: flattenAux f (rest ++ ch) = c :: flattenAux f2' (rest ++ ch)
          have hra : forestSize (rest ++ ch) =
              forestSize rest + forestSize ch := forestSize_append rest ch
          rw [ih f2' (rest ++ ch) (by omega) (by omega)]


/-! ## Claim theorems -/

/-- C1: the claim says a case-insensitive textual `"false"` coerces to
`false`.  On the code it does not: `BooleanField.__set__` assigns
`value = False` for a lower-cased match and then unconditionally overwrites
it with `value = True`, so `"false"`, `"FALSE"` and `"False"` are all stored
as `True`.  This theorem evaluates the embedded code at those inputs. -/
theorem C1_textual_false_stored_as_true :
    BooleanField.set ⟨false, true, false, false, false, ""⟩ Option.none
      (PyVal.str "false") = Except.ok (PyVal.bool true)
    ∧ BooleanField.set ⟨false, true, false, false, false, ""⟩ Option.none
      (PyVal.str "FALSE") = Except.ok (PyVal.bool true)
    ∧ BooleanField.set ⟨false, true, false, false, false, ""⟩ Option.none
      (PyVal.str "False") = Except.ok (PyVal.bool true)
    ∧ BooleanField.set ⟨false, true, false, false, false, ""⟩ Option.none
      PyVal.none = Except.ok PyVal.none
    ∧ BooleanField.set ⟨false, true, false, false, false, ""⟩ Option.none
      (PyVal.int 2) = Except.ok (PyVal.bool true) :=
  ⟨rfl, rfl, rfl, rfl, rfl⟩

/-- C2 counterexample: assigning null to a non-nullable *string* field does
not fail — `CharField.__set__` replaces every falsy value (null included)
with `''` before the base class's null check can run, so the assignment
succeeds and stores the empty string. -/
theorem C2_char_null_succeeds :
    CharField.set defaultOpts Option.none PyVal.none =
      Except.ok (PyVal.str "") := rfl

/-- C2 (amended): assigning null to a non-nullable field fails with a
validation error for the base field and for boolean, datetime, uuid, toOne
(`DeferredField`) and toMany fields — but not for string fields, where null
is coerced to `''` first, so the assignment is governed only by the
readonly rule and otherwise stores the empty string. -/
theorem C2_null_rejected_except_string (o : FieldOpts) (slot : Option PyVal)
    (h : o.nullable = false) :
    Field.set o slot PyVal.none = Except.error Err.valueError
    ∧ BooleanField.set o slot PyVal.none = Except.error Err.valueError
    ∧ DateTimeField.set o slot PyVal.none = Except.error Err.valueError
    ∧ UUIDField.set o slot PyVal.none = Except.error Err.valueError
    ∧ (∀ fld : DeferredField, ∀ ow : Owner,
        (DeferredField.set fld ow PyVal.none).1 = Except.error Err.valueError)
    ∧ (∀ tm : ToManyField, ∀ ow : Owner, tm.opts = o →
        (ToManyField.set tm ow PyVal.none).1 = Except.error Err.valueError)
    ∧ CharField.set o slot PyVal.none =
        (if o.readonly = true ∧ storedNonNull slot = true then
          Except.error Err.valueError
        else Except.ok (PyVal.str "")) := by
  refine ⟨?_, ?_, ?_, ?_, ?_, ?_, ?_⟩
  · simp [Field.set, h, PyVal.isNone]
  · simp [BooleanField.set, Field.set, h, PyVal.isNone]
  · simp [DateTimeField.set, pyTruthy, Field.set, h, PyVal.isNone]
  · simp [UUIDField.set, pyTruthy, Field.set, h, PyVal.isNone]
  · intro fld ow; rfl
  · intro tm ow hopts
    simp [ToManyField.set, pyTruthy, Field.set, hopts, h, PyVal.isNone]
  · simp [CharField.set, pyTruthy, pyUnicode, Field.set, PyVal.isNone]

/-- C2 witness: the amended statement instantiated at a plain non-nullable
field with an empty slot. -/
theorem C2_null_rejected_except_string_witness :
    defaultOpts.nullable = false
    ∧ (Field.set defaultOpts Option.none PyVal.none = Except.error Err.valueError
       ∧ BooleanField.set defaultOpts Option.none PyVal.none = Except.error Err.valueError
       ∧ DateTimeField.set defaultOpts Option.none PyVal.none = Except.error Err.valueError
       ∧ UUIDField.set defaultOpts Option.none PyVal.none = Except.error Err.valueError
       ∧ (∀ fld : DeferredField, ∀ ow : Owner,
           (DeferredField.set fld ow PyVal.none).1 = Except.error Err.valueError)
       ∧ (∀ tm : ToManyField, ∀ ow : Owner, tm.opts = defaultOpts →
           (ToManyField.set tm ow PyVal.none).1 = Except.error Err.valueError)
       ∧ CharField.set defaultOpts Option.none PyVal.none =
           (if defaultOpts.readonly = true ∧ storedNonNull Option.none = true then
             Except.error Err.valueError
           else Except.ok (PyVal.str ""))) :=
  ⟨rfl, C2_null_rejected_except_string defaultOpts Option.none rfl⟩

/-- C7 counterexample: the first assignment to a readonly field does *not*
always succeed — on a readonly, non-nullable field the very first
assignment of null fails the null check. -/
theorem C7_first_assignment_can_fail :
    Field.set ⟨false, false, true, false, false, ""⟩ Option.none PyVal.none =
      Except.error Err.valueError := rfl

/-- C7 (amended): for a readonly field, the first assignment (empty slot)
succeeds whenever it passes the null rule (the field is nullable or the
value non-null), and any assignment made while the slot holds a non-null
value fails with a validation error (nothing is stored on failure, so the
slot is unchanged). -/
theorem C7_readonly_second_assignment_fails (o : FieldOpts)
    (h : o.readonly = true) (v w s : PyVal) :
    ((o.nullable = true ∨ v.isNone = false) →
      Field.set o Option.none v = Except.ok v)
    ∧ (s.isNone = false → Field.set o (some s) w = Except.error Err.valueError) := by
  constructor
  · intro hv
    have : ¬(o.nullable = false ∧ v.isNone = true) := by
      rcases hv with h1 | h1 <;> simp [h1]
    simp [Field.set, this, storedNonNull]
  · intro hs
    by_cases hnull : o.nullable = false ∧ w.isNone = true
    · simp [Field.set, hnull]
    · simp [Field.set, hnull, storedNonNull, h, hs]

/-- C7 witness: a readonly field; first assignment of `"x"` succeeds, a
second assignment over the stored `"x"` fails. -/
theorem C7_readonly_second_assignment_fails_witness :
    FieldOpts.readonly ⟨false, false, true, false, false, ""⟩ = true
    ∧ (((FieldOpts.nullable ⟨false, false, true, false, false, ""⟩ = true
          ∨ (PyVal.str "x").isNone = false) →
        Field.set ⟨false, false, true, false, false, ""⟩ Option.none (PyVal.str "x") =
          Except.ok (PyVal.str "x"))
      ∧ ((PyVal.str "x").isNone = false →
        Field.set ⟨false, false, true, false, false, ""⟩ (some (PyVal.str "x"))
          (PyVal.str "y") = Except.error Err.valueError)) :=
  ⟨rfl, C7_readonly_second_assignment_fails ⟨false, false, true, false, false, ""⟩
    rfl (PyVal.str "x") (PyVal.str "y") (PyVal.str "x")⟩

/-- C8: a raw field declaration whose name ends in `uuid` is classified as a
UUID field no matter what type the schema declared, and the generator emits
a `UUIDField` declaration for it. -/
theorem C8_uuid_name_forces_uuid_field (f : GenField)
    (h : pyEndsWith f.name "uuid" = true) :
    fieldClsFor f = some "UUIDField"
    ∧ ∀ lvl, Field.write_field f lvl = Except.ok
        [cgLine lvl (f.name ++ " = " ++ "UUIDField" ++ "("),
         cgLine (lvl + 1) ("help_text=\"" ++ escapeHelp f.help_text ++ "\","),
         cgLine (lvl + 1) ("blank=" ++ pyBool f.blank ++ ","),
         cgLine (lvl + 1) ("nullable=" ++ pyBool f.nullable ++ ","),
         cgLine (lvl + 1) ("readonly=" ++ pyBool f.readonly ++ ","),
         cgLine (lvl + 1) ("unique=" ++ pyBool f.unique ++ ")")] := by
  constructor
  · simp [fieldClsFor, h]
  · intro lvl; simp [Field.write_field, fieldClsFor, h]

/-- C8 witness: a field named `owner_uuid` declared as `"string"` is still
emitted as a `UUIDField`. -/
theorem C8_uuid_name_forces_uuid_field_witness :
    pyEndsWith "owner_uuid" "uuid" = true
    ∧ (fieldClsFor ⟨"owner_uuid", "string", Option.none, false, false, false, false, ""⟩ =
        some "UUIDField"
      ∧ ∀ lvl, Field.write_field
          ⟨"owner_uuid", "string", Option.none, false, false, false, false, ""⟩ lvl =
        Except.ok
          [cgLine lvl ("owner_uuid" ++ " = " ++ "UUIDField" ++ "("),
           cgLine (lvl + 1) ("help_text=\"" ++ escapeHelp "" ++ "\","),
           cgLine (lvl + 1) ("blank=" ++ pyBool false ++ ","),
           cgLine (lvl + 1) ("nullable=" ++ pyBool false ++ ","),
           cgLine (lvl + 1) ("readonly=" ++ pyBool false ++ ","),
           cgLine (lvl + 1) ("unique=" ++ pyBool false ++ ")")]) :=
  ⟨by decide, C8_uuid_name_forces_uuid_field
    ⟨"owner_uuid", "string", Option.none, false, false, false, false, ""⟩ (by decide)⟩

/-! ## Helper lemmas about the deferred-relation operations -/

theorem lookup_dictInsert (d : List (String × PyVal)) (k : String) (v : PyVal) :
    (dictInsert d k v).lookup k = some v := by
  induction d with
  | nil => simp [dictInsert, List.lookup]
  | cons p rest ih =>
    obtain ⟨k2, v2⟩ := p
    by_cases hk : k2 = k
    · simp [dictInsert, hk, List.lookup]
    · simp only [dictInsert, if_neg hk, List.lookup]
      have : (k == k2) = false := by
        simp [beq_iff_eq]
        exact fun he => hk he.symm
      simp [this, ih]

/-- Inversion of a successful `DeferredField.__set__`: the descriptor's
resolved-instance cache is cleared and the URL is stored in the owner's
dict under the field's name. -/
theorem deferred_set_inv {f : DeferredField} {o : Owner} {u : String}
    {f2 : DeferredField} {o2 : Owner}
    (h : DeferredField.set f o (PyVal.str u) = (Except.ok (), f2, o2)) :
    f2 = ⟨f.opts, f.name, f.related_resource_class, Option.none⟩ ∧
    o2 = ⟨o.base_url, dictInsert o.dict f.name (PyVal.str u)⟩ := by
  cases hfs : Field.set f.opts (o.dict.lookup f.name) (PyVal.str u) with
  | error e =>
    simp [DeferredField.set, DeferredField.clearCache, hfs] at h
  | ok stored =>
    have hst : stored = PyVal.str u := by
      simp only [Field.set, PyVal.isNone] at hfs
      split at hfs
      · simp at hfs
      · split at hfs
        · simp at hfs
        · simpa using hfs.symm
    subst hst
    simp [DeferredField.set, DeferredField.clearCache, hfs] at h
    exact ⟨h.1.symm, h.2.symm⟩

/-- A resolved (`Resolved`-state) toOne field returns its cached instance
with no fetch and no state change. -/
theorem deferred_get_cached (env : Env) (fld : DeferredField) (o : Owner)
    (r : RInstance) (h : fld.inst = some r) :
    DeferredField.get env fld o = (Except.ok (GetVal.res r), fld, []) := by
  simp [DeferredField.get, h]

/-- A pending toOne field whose class resolution yields `c` fetches exactly
its resolved URL, materializes an instance of `c` from the response, and
caches both the class and the instance. -/
theorem deferred_get_resolves (env : Env) (o : Owner) (fld : DeferredField)
    (u : String) (c : ResourceClass)
    (h1 : fld.inst = Option.none)
    (h3 : o.dict.lookup fld.name = some (PyVal.str u)) (h4 : u ≠ "")
    (hc : (match fld.related_resource_class with
           | some c0 => some c0
           | Option.none => get_related_resource_class env.registry (resolveUrl o u)) =
          some c) :
    DeferredField.get env fld o =
      (Except.ok (GetVal.res ⟨c, o.base_url, env.http (resolveUrl o u)⟩),
       ⟨fld.opts, fld.name, some c, some ⟨c, o.base_url, env.http (resolveUrl o u)⟩⟩,
       [resolveUrl o u]) := by
  simp [DeferredField.get, h1, h3, pyTruthy, h4, hc]

/-- A pending toOne field whose class resolution finds nothing fetches its
resolved URL and then fails (`None` is called as a constructor). -/
theorem deferred_get_no_class (env : Env) (o : Owner) (fld : DeferredField)
    (u : String)
    (h1 : fld.inst = Option.none)
    (h3 : o.dict.lookup fld.name = some (PyVal.str u)) (h4 : u ≠ "")
    (hc : (match fld.related_resource_class with
           | some c0 => some c0
           | Option.none => get_related_resource_class env.registry (resolveUrl o u)) =
          Option.none) :
    DeferredField.get env fld o =
      (Except.error Err.typeError, ⟨fld.opts, fld.name, Option.none, Option.none⟩,
       [resolveUrl o u]) := by
  simp [DeferredField.get, h1, h3, pyTruthy, h4, hc]

/-- When the related class is already pinned on the descriptor, `__get__`
never consults the registry: any two registries give identical results. -/
theorem deferred_get_registry_irrelevant (reg1 reg2 : List ClassTree)
    (http : String → String) (fld : DeferredField) (o : Owner)
    (c : ResourceClass) (hc : fld.related_resource_class = some c) :
    DeferredField.get ⟨reg1, http⟩ fld o = DeferredField.get ⟨reg2, http⟩ fld o := by
  cases hi : fld.inst with
  | some r => simp [DeferredField.get, hi]
  | none =>
    cases hl : o.dict.lookup fld.name with
    | none => simp [DeferredField.get, hi, hl]
    | some v =>
      by_cases ht : pyTruthy v = false
      · simp [DeferredField.get, hi, hl, ht]
      · cases v with
        | str url => simp [DeferredField.get, hi, hl, ht, hc]
        | _ => simp [DeferredField.get, hi, hl, ht]

/-- When the related class is pinned and the cache is empty, every
successful read materializes an instance of exactly that class. -/
theorem deferred_get_class_fixed (env : Env) (fld : DeferredField) (o : Owner)
    (c : ResourceClass) (hc : fld.related_resource_class = some c)
    (hi : fld.inst = Option.none) :
    ∀ r2 g3 fs2,
      DeferredField.get env fld o = (Except.ok (GetVal.res r2), g3, fs2) →
      r2.cls = c := by
  intro r2 g3 fs2 h
  cases hl : o.dict.lookup fld.name with
  | none => simp [DeferredField.get, hi, hl] at h
  | some v =>
    by_cases ht : pyTruthy v = false
    · simp [DeferredField.get, hi, hl, ht] at h
    · cases v with
      | str url =>
        simp [DeferredField.get, hi, hl, ht, hc] at h
        rw [← h.1]
      | _ => simp [DeferredField.get, hi, hl, ht] at h

/-- C3: the claim says the lazy-relation state of a toOne field is owned
exclusively by the owning `ResourceInstance` and never shared.  On the code
it is shared: `self.instance` lives on the descriptor object, which Python
stores once on the resource class.  Evaluating the embedded code: before
any resolution, a read through `demoOwner2` (slot `/api/v1/blag/2/`) would
fetch and return the `blag/2` instance; after `demoOwner1` resolves its own
`/api/v1/blag/1/` (leaving the shared descriptor in state `demoField1`), the
same read through `demoOwner2` returns `demoOwner1`'s cached `blag/1`
instance, with no fetch — resolving on one instance changed what the other
instance's read returns. -/
theorem C3_relation_state_shared_between_instances :
    DeferredField.get demoEnv demoField demoOwner2 =
      (Except.ok (GetVal.res demoResolved2),
       ⟨defaultOpts, "author", some blagCls, some demoResolved2⟩,
       ["http://host/api/v1/blag/2/"])
    ∧ DeferredField.get demoEnv demoField demoOwner1 =
      (Except.ok (GetVal.res demoResolved1), demoField1,
       ["http://host/api/v1/blag/1/"])
    ∧ DeferredField.get demoEnv demoField1 demoOwner2 =
      (Except.ok (GetVal.res demoResolved1), demoField1, []) :=
  ⟨rfl, rfl, rfl⟩

/-- C4: writing a toOne field (successfully) always clears the cached
resolved instance before storing the new URL; consequently the next read
that materializes an instance performs exactly one fetch — of the freshly
stored URL — and every read after that returns the cached instance with no
fetch; and a read while the field is resolved returns the cache with no
fetch. -/
theorem C4_toOne_write_invalidates_then_single_fetch (env : Env)
    (f : DeferredField) (o : Owner) (u : String) (f2 : DeferredField)
    (o2 : Owner)
    (hset : DeferredField.set f o (PyVal.str u) = (Except.ok (), f2, o2)) :
    f2.inst = Option.none
    ∧ (∀ g r fs,
        DeferredField.get env f2 o2 = (Except.ok (GetVal.res r), g, fs) →
        fs = [resolveUrl o2 u]
        ∧ DeferredField.get env g o2 = (Except.ok (GetVal.res r), g, []))
    ∧ (∀ r, f.inst = some r →
        DeferredField.get env f o = (Except.ok (GetVal.res r), f, [])) := by
  obtain ⟨hf2, ho2⟩ := deferred_set_inv hset
  refine ⟨by rw [hf2], ?_, ?_⟩
  · intro g r fs hget
    have hi : f2.inst = Option.none := by rw [hf2]
    have hl : o2.dict.lookup f2.name = some (PyVal.str u) := by
      rw [hf2, ho2]
      exact lookup_dictInsert o.dict f.name (PyVal.str u)
    by_cases hu : u = ""
    · subst hu
      simp [DeferredField.get, hi, hl, pyTruthy] at hget
    · cases hcr : (match f2.related_resource_class with
          | some c0 => some c0
          | Option.none =>
              get_related_resource_class env.registry (resolveUrl o2 u)) with
      | none =>
        rw [deferred_get_no_class env o2 f2 u hi hl hu hcr] at hget
        simp at hget
      | some c =>
        rw [deferred_get_resolves env o2 f2 u c hi hl hu hcr] at hget
        simp only [Prod.mk.injEq, Except.ok.injEq, GetVal.res.injEq] at hget
        obtain ⟨hr, hg, hfs⟩ := hget
        refine ⟨hfs.symm, ?_⟩
        have hcache : g.inst = some r := by rw [← hg, ← hr]
        exact deferred_get_cached env g o2 r hcache
  · intro r hr
    exact deferred_get_cached env f o r hr

/-- C4 witness: the resolved `author` descriptor is re-set to
`/api/v1/blag/2/`; the set succeeds with the cache cleared, and the
conclusions hold at that state. -/
theorem C4_toOne_write_invalidates_then_single_fetch_witness :
    DeferredField.set demoField1 demoOwner1 (PyVal.str "/api/v1/blag/2/") =
      (Except.ok (), demoField2, demoOwner1b)
    ∧ (demoField2.inst = Option.none
      ∧ (∀ g r fs,
          DeferredField.get demoEnv demoField2 demoOwner1b =
            (Except.ok (GetVal.res r), g, fs) →
          fs = [resolveUrl demoOwner1b "/api/v1/blag/2/"]
          ∧ DeferredField.get demoEnv g demoOwner1b =
            (Except.ok (GetVal.res r), g, []))
      ∧ (∀ r, demoField1.inst = some r →
          DeferredField.get demoEnv demoField1 demoOwner1 =
            (Except.ok (GetVal.res r), demoField1, []))) :=
  ⟨rfl, C4_toOne_write_invalidates_then_single_fetch demoEnv demoField1
    demoOwner1 "/api/v1/blag/2/" demoField2 demoOwner1b rfl⟩

/-- C10: when a toOne field with no declared related class is first read
successfully, the inferred class is cached in
`self.related_resource_class` on the descriptor; a later re-`__set__`
(which clears only the instance cache) keeps the pinned class, after which
reads never consult the registry again — the result is identical under any
registry, and every successful read materializes the originally inferred
class, whatever URL is now stored and whichever owning instance reads. -/
theorem C10_inferred_class_cached_on_field (env : Env) (f : DeferredField)
    (o : Owner) (r : RInstance) (g : DeferredField) (fs : List String)
    (h0 : f.inst = Option.none)
    (hrrc : f.related_resource_class = Option.none)
    (h1 : DeferredField.get env f o = (Except.ok (GetVal.res r), g, fs)) :
    g = ⟨f.opts, f.name, some r.cls, some r⟩
    ∧ (∀ o2 u g2 o2',
        DeferredField.set g o2 (PyVal.str u) = (Except.ok (), g2, o2') →
        g2.related_resource_class = some r.cls
        ∧ (∀ reg2 o3, DeferredField.get ⟨reg2, env.http⟩ g2 o3 =
              DeferredField.get ⟨env.registry, env.http⟩ g2 o3)
        ∧ (∀ o3 r2 g3 fs2,
            DeferredField.get env g2 o3 = (Except.ok (GetVal.res r2), g3, fs2) →
            r2.cls = r.cls)) := by
  have hg : g = ⟨f.opts, f.name, some r.cls, some r⟩ := by
    cases hl : o.dict.lookup f.name with
    | none => simp [DeferredField.get, h0, hl] at h1
    | some v =>
      by_cases ht : pyTruthy v = false
      · simp [DeferredField.get, h0, hl, ht] at h1
      · cases v with
        | str url =>
          cases hreg : get_related_resource_class env.registry (resolveUrl o url) with
          | none => simp [DeferredField.get, h0, hl, ht, hrrc, hreg] at h1
          | some c =>
            simp [DeferredField.get, h0, hl, ht, hrrc, hreg] at h1
            obtain ⟨hr, hgg, _⟩ := h1
            rw [← hgg, ← hr]
        | _ => simp [DeferredField.get, h0, hl, ht] at h1
  refine ⟨hg, ?_⟩
  intro o2 u g2 o2' hset
  obtain ⟨hg2, _⟩ := deferred_set_inv hset
  have hcls : g2.related_resource_class = some r.cls := by rw [hg2, hg]
  have hinst2 : g2.inst = Option.none := by rw [hg2]
  exact ⟨hcls,
    fun reg2 o3 =>
      deferred_get_registry_irrelevant reg2 env.registry env.http g2 o3 r.cls hcls,
    fun o3 r2 g3 fs2 hget =>
      deferred_get_class_fixed env g2 o3 r.cls hcls hinst2 r2 g3 fs2 hget⟩

/-- C10 witness: the `author` field infers `Blag` on its first read through
`demoOwner1`; the conclusions hold at that state. -/
theorem C10_inferred_class_cached_on_field_witness :
    (demoField.inst = Option.none
     ∧ demoField.related_resource_class = Option.none
     ∧ DeferredField.get demoEnv demoField demoOwner1 =
        (Except.ok (GetVal.res demoResolved1), demoField1,
         ["http://host/api/v1/blag/1/"]))
    ∧ (demoField1 =
        ⟨demoField.opts, demoField.name, some demoResolved1.cls, some demoResolved1⟩
      ∧ (∀ o2 u g2 o2',
          DeferredField.set demoField1 o2 (PyVal.str u) = (Except.ok (), g2, o2') →
          g2.related_resource_class = some demoResolved1.cls
          ∧ (∀ reg2 o3, DeferredField.get ⟨reg2, demoEnv.http⟩ g2 o3 =
                DeferredField.get ⟨demoEnv.registry, demoEnv.http⟩ g2 o3)
          ∧ (∀ o3 r2 g3 fs2,
              DeferredField.get demoEnv g2 o3 = (Except.ok (GetVal.res r2), g3, fs2) →
              r2.cls = demoResolved1.cls))) :=
  ⟨⟨rfl, rfl, rfl⟩,
   C10_inferred_class_cached_on_field demoEnv demoField demoOwner1 demoResolved1
     demoField1 ["http://host/api/v1/blag/1/"] rfl rfl rfl⟩

theorem forestElems_append (a b : List ClassTree) :
    forestElems (a ++ b) = forestElems a ++ forestElems b := by
  induction a with
  | nil => simp [forestElems]
  | cons t ts ih => simp [forestElems, ih]

theorem subtreesF_append (a b : List ClassTree) :
    subtreesF (a ++ b) = subtreesF a ++ subtreesF b := by
  induction a with
  | nil => simp [subtreesF]
  | cons t ts ih => simp [subtreesF, ih]

/-- With a sufficient iteration bound, the scan's visit order contains
exactly the classes of the forest. -/
theorem mem_flattenAux {x : ResourceClass} :
    ∀ fuel q, forestSize q ≤ fuel →
      (x ∈ flattenAux fuel q ↔ x ∈ forestElems q) := by
  intro fuel
  induction fuel with
  | zero =>
    intro q h
    have hq : q = [] := forestSize_eq_zero (Nat.le_zero.mp h)
    subst hq
    simp [flattenAux, forestElems]
  | succ f ih =>
    intro q h
    cases q with
    | nil => simp [flattenAux, forestElems]
    | cons t rest =>
      cases t with
      | node c ch =>
        have hsz : forestSize (ClassTree.node c ch :: rest) =
            1 + forestSize ch + forestSize rest := by
          simp [forestSize, treeSize]
        have hra : forestSize (rest ++ ch) =
            forestSize rest + forestSize ch := forestSize_append rest ch
        have := ih (rest ++ ch) (by omega)
        simp only [flattenAux, List.mem_cons, this, forestElems_append,
          forestElems, treeElems, List.mem_append]
        tauto

/-- The scan loop returns exactly the first class in its visit order whose
`list_endpoint` is a prefix of the path. -/
theorem scanAux_eq_find (path : String) :
    ∀ fuel q, scanAux path fuel q =
      (flattenAux fuel q).find? (fun c => pyStartsWith path c.list_endpoint) := by
  intro fuel
  induction fuel with
  | zero => intro q; cases q <;> rfl
  | succ f ih =>
    intro q
    cases q with
    | nil => rfl
    | cons t rest =>
      cases t with
      | node c ch =>
        show (if pyStartsWith path c.list_endpoint then some c
              else scanAux path f (rest ++ ch)) =
             List.find? (fun c => pyStartsWith path c.list_endpoint)
               (c :: flattenAux f (rest ++ ch))
        by_cases hp : pyStartsWith path c.list_endpoint = true
        · simp [hp, List.find?]
        · simp only [Bool.not_eq_true] at hp
          simp [hp, List.find?, ih]

theorem precedesIn_cons (a x y : ResourceClass) (l : List ResourceClass)
    (h : precedesIn x y l) : precedesIn x y (a :: l) := by
  obtain ⟨l1, l2, hl, hy⟩ := h
  exact ⟨a :: l1, l2, by rw [hl]; rfl, hy⟩

/-- In the scan's visit order, every class precedes every class of its own
subtree of later-registered subclasses. -/
theorem parent_precedes_flattenAux :
    ∀ fuel q (c : ResourceClass) (ch : List ClassTree),
      forestSize q ≤ fuel → ClassTree.node c ch ∈ subtreesF q →
      ∀ d ∈ forestElems ch, precedesIn c d (flattenAux fuel q) := by
  intro fuel
  induction fuel with
  | zero =>
    intro q c ch h hsub d hd
    have hq : q = [] := forestSize_eq_zero (Nat.le_zero.mp h)
    subst hq
    simp [subtreesF] at hsub
  | succ f ih =>
    intro q c ch h hsub d hd
    cases q with
    | nil => simp [subtreesF] at hsub
    | cons t rest =>
      cases t with
      | node c0 ch0 =>
        have hsz : forestSize (ClassTree.node c0 ch0 :: rest) =
            1 + forestSize ch0 + forestSize rest := by
          simp [forestSize, treeSize]
        have hra : forestSize (rest ++ ch0) =
            forestSize rest + forestSize ch0 := forestSize_append rest ch0
        simp only [subtreesF, subtreesT, List.cons_append, List.mem_cons,
          List.mem_append] at hsub
        rcases hsub with heq | hin | hin
        · -- the head itself: its class is emitted first
          cases heq
          refine ⟨[], flattenAux f (rest ++ ch), by simp [flattenAux], ?_⟩
          have hmem : d ∈ forestElems (rest ++ ch) := by
            rw [forestElems_append]
            exact List.mem_append.mpr (Or.inr hd)
          exact (mem_flattenAux f (rest ++ ch) (by omega)).mpr hmem
        · -- inside the head's subclass forest
          have hsub2 : ClassTree.node c ch ∈ subtreesF (rest ++ ch0) := by
            rw [subtreesF_append]
            exact List.mem_append.mpr (Or.inr hin)
          have := ih (rest ++ ch0) c ch (by omega) hsub2 d hd
          simpa [flattenAux] using precedesIn_cons c0 c d _ this
        · -- inside a later top-level registration
          have hsub2 : ClassTree.node c ch ∈ subtreesF (rest ++ ch0) := by
            rw [subtreesF_append]
            exact List.mem_append.mpr (Or.inl hin)
          have := ih (rest ++ ch0) c ch (by omega) hsub2 d hd
          simpa [flattenAux] using precedesIn_cons c0 c d _ this

/-- C5: reading a Pending toOne field that has no declared related class
chooses the first class in the registry scan's visit order — registration
order, each class ahead of all of its own later-registered specializations —
whose `list_endpoint` is a prefix of the resolved URL's path, and caches and
materializes exactly that class; when no registered class matches, the read
fails (the source calls `None`; the spec's name for the failure is
`RelationResolutionError`). -/
theorem C5_inference_first_matching_registered_class (env : Env)
    (f : DeferredField) (o : Owner) (u : String)
    (hinst : f.inst = Option.none)
    (hcls : f.related_resource_class = Option.none)
    (hslot : o.dict.lookup f.name = some (PyVal.str u))
    (hu : u ≠ "") :
    get_related_resource_class env.registry (resolveUrl o u) =
      (flattenForest env.registry).find?
        (fun c => pyStartsWith (urlPath (resolveUrl o u)) c.list_endpoint)
    ∧ (∀ c, get_related_resource_class env.registry (resolveUrl o u) = some c →
        DeferredField.get env f o =
          (Except.ok (GetVal.res ⟨c, o.base_url, env.http (resolveUrl o u)⟩),
           ⟨f.opts, f.name, some c, some ⟨c, o.base_url, env.http (resolveUrl o u)⟩⟩,
           [resolveUrl o u]))
    ∧ (get_related_resource_class env.registry (resolveUrl o u) = Option.none →
        DeferredField.get env f o =
          (Except.error Err.typeError,
           ⟨f.opts, f.name, Option.none, Option.none⟩, [resolveUrl o u]))
    ∧ (∀ c ch, ClassTree.node c ch ∈ subtreesF env.registry →
        ∀ d ∈ forestElems ch, precedesIn c d (flattenForest env.registry)) := by
  refine ⟨scanAux_eq_find _ _ _, ?_, ?_, ?_⟩
  · intro c hc
    exact deferred_get_resolves env o f u c hinst hslot hu (by simp [hcls, hc])
  · intro hc
    exact deferred_get_no_class env o f u hinst hslot hu (by simp [hcls, hc])
  · intro c ch hsub d hd
    exact parent_precedes_flattenAux (forestSize env.registry) env.registry c ch
      (Nat.le_refl _) hsub d hd

/-- C5 witness: the fresh `author` field with slot `/api/v1/blag/1/` under
the two-class demo registry. -/
theorem C5_inference_first_matching_registered_class_witness :
    (demoField.inst = Option.none
     ∧ demoField.related_resource_class = Option.none
     ∧ demoOwner1.dict.lookup demoField.name = some (PyVal.str "/api/v1/blag/1/")
     ∧ "/api/v1/blag/1/" ≠ "")
    ∧ (get_related_resource_class demoEnv.registry
          (resolveUrl demoOwner1 "/api/v1/blag/1/") =
        (flattenForest demoEnv.registry).find?
          (fun c => pyStartsWith (urlPath (resolveUrl demoOwner1 "/api/v1/blag/1/"))
            c.list_endpoint)
      ∧ (∀ c, get_related_resource_class demoEnv.registry
            (resolveUrl demoOwner1 "/api/v1/blag/1/") = some c →
          DeferredField.get demoEnv demoField demoOwner1 =
            (Except.ok (GetVal.res
                ⟨c, demoOwner1.base_url,
                 demoEnv.http (resolveUrl demoOwner1 "/api/v1/blag/1/")⟩),
             ⟨demoField.opts, demoField.name, some c,
              some ⟨c, demoOwner1.base_url,
                    demoEnv.http (resolveUrl demoOwner1 "/api/v1/blag/1/")⟩⟩,
             [resolveUrl demoOwner1 "/api/v1/blag/1/"]))
      ∧ (get_related_resource_class demoEnv.registry
            (resolveUrl demoOwner1 "/api/v1/blag/1/") = Option.none →
          DeferredField.get demoEnv demoField demoOwner1 =
            (Except.error Err.typeError,
             ⟨demoField.opts, demoField.name, Option.none, Option.none⟩,
             [resolveUrl demoOwner1 "/api/v1/blag/1/"]))
      ∧ (∀ c ch, ClassTree.node c ch ∈ subtreesF demoEnv.registry →
          ∀ d ∈ forestElems ch, precedesIn c d (flattenForest demoEnv.registry))) :=
  ⟨⟨rfl, rfl, rfl, by decide⟩,
   C5_inference_first_matching_registered_class demoEnv demoField demoOwner1
     "/api/v1/blag/1/" rfl rfl rfl (by decide)⟩

theorem zip_getElem?_of_both {α β : Type} :
    ∀ (l1 : List α) (l2 : List β) (i : Nat) (x : α) (y : β),
      l1[i]? = some x → l2[i]? = some y → (l1.zip l2)[i]? = some (x, y) := by
  intro l1
  induction l1 with
  | nil => intro l2 i x y h1; simp at h1
  | cons a as ih =>
    intro l2 i x y h1 h2
    cases l2 with
    | nil => simp at h2
    | cons b bs =>
      cases i with
      | zero =>
        simp at h1 h2
        simp [List.zip_cons_cons, h1, h2]
      | succ n =>
        simp at h1 h2
        simpa [List.zip_cons_cons] using ih bs n x y h1 h2

theorem zip_drop_eq {α β : Type} :
    ∀ (l1 : List α) (l2 : List β) (n : Nat),
      (l1.drop n).zip (l2.drop n) = (l1.zip l2).drop n := by
  intro l1
  induction l1 with
  | nil => intro l2 n; simp
  | cons a as ih =>
    intro l2 n
    cases l2 with
    | nil => simp
    | cons b bs =>
      cases n with
      | zero => simp
      | succ m => simpa [List.zip_cons_cons] using ih bs m

theorem zip_take_eq {α β : Type} :
    ∀ (l1 : List α) (l2 : List β) (n : Nat),
      (l1.take n).zip (l2.take n) = (l1.zip l2).take n := by
  intro l1
  induction l1 with
  | nil => intro l2 n; simp
  | cons a as ih =>
    intro l2 n
    cases l2 with
    | nil => simp
    | cons b bs =>
      cases n with
      | zero => simp
      | succ m => simpa [List.zip_cons_cons] using ih bs m

/-- A pending toOne element with a non-empty URL bound under its own name
fetches exactly its own resolved URL, whatever the outcome of its class
resolution — declared class, registry inference, or inference failure. -/
theorem deferred_get_fetch_exact (env : Env) (o : Owner)
    (fld : DeferredField) (u : String)
    (h1 : fld.inst = Option.none)
    (h3 : o.dict.lookup fld.name = some (PyVal.str u)) (h4 : u ≠ "") :
    (DeferredField.get env fld o).2.2 = [resolveUrl o u] := by
  cases hcr : resolveClass env o fld u with
  | none => rw [deferred_get_no_class env o fld u h1 h3 h4 hcr]
  | some c => rw [deferred_get_resolves env o fld u c h1 h3 h4 hcr]

/-- The slice comprehension over a run of pending fields, each bound (under
its own per-element name) to its own URL, with every element's class
resolution (declared or registry-inferred, as given by `k`) succeeding:
every element is resolved in order — one fetch per element, one
materialized instance per element, every element left `Resolved`. -/
theorem resolveAll_spec (env : Env) (o : Owner)
    (k : DeferredField → String → ResourceClass) :
    ∀ (fs : List DeferredField) (us : List String),
      fs.length = us.length →
      (∀ p ∈ fs.zip us,
        p.1.inst = Option.none
        ∧ o.dict.lookup p.1.name = some (PyVal.str p.2) ∧ p.2 ≠ ""
        ∧ resolveClass env o p.1 p.2 = some (k p.1 p.2)) →
      resolveAll env o fs =
        (Except.ok ((fs.zip us).map fun p =>
            GetVal.res ⟨k p.1 p.2, o.base_url, env.http (resolveUrl o p.2)⟩),
         (fs.zip us).map (fun p =>
            ⟨p.1.opts, p.1.name, some (k p.1 p.2),
             some ⟨k p.1 p.2, o.base_url, env.http (resolveUrl o p.2)⟩⟩),
         us.map (fun u2 => resolveUrl o u2)) := by
  intro fs
  induction fs with
  | nil =>
    intro us hlen hp
    cases us with
    | nil => rfl
    | cons u us' => simp at hlen
  | cons fld fs' ih =>
    intro us hlen hp
    cases us with
    | nil => simp at hlen
    | cons u us' =>
      have hhead := hp (fld, u) (by simp [List.zip_cons_cons])
      have htail : ∀ p ∈ fs'.zip us',
          p.1.inst = Option.none
          ∧ o.dict.lookup p.1.name = some (PyVal.str p.2) ∧ p.2 ≠ ""
          ∧ resolveClass env o p.1 p.2 = some (k p.1 p.2) := by
        intro p hmem
        exact hp p (by simp [List.zip_cons_cons, hmem])
      have hget := deferred_get_resolves env o fld u (k fld u) hhead.1
        hhead.2.1 hhead.2.2.1 hhead.2.2.2
      have hrec := ih us' (by simpa using hlen) htail
      simp [resolveAll, hget, hrec, List.zip_cons_cons]

/-- The slice comprehension fetches only its own elements' resolved URLs,
in order, even when an element's class inference fails midway (the
comprehension then aborts, having fetched a prefix of them). -/
theorem resolveAll_fetch_only_own (env : Env) (o : Owner) :
    ∀ (fs : List DeferredField) (us : List String),
      fs.length = us.length →
      (∀ p ∈ fs.zip us,
        p.1.inst = Option.none
        ∧ o.dict.lookup p.1.name = some (PyVal.str p.2) ∧ p.2 ≠ "") →
      ((resolveAll env o fs).2.2).isPrefixOf
        (us.map fun u2 => resolveUrl o u2) = true := by
  intro fs
  induction fs with
  | nil =>
    intro us _ _
    cases us <;> rfl
  | cons fld fs' ih =>
    intro us hlen hp
    cases us with
    | nil => simp at hlen
    | cons u us' =>
      have hhead := hp (fld, u) (by simp [List.zip_cons_cons])
      have htail : ∀ p ∈ fs'.zip us',
          p.1.inst = Option.none
          ∧ o.dict.lookup p.1.name = some (PyVal.str p.2) ∧ p.2 ≠ "" := by
        intro p hmem
        exact hp p (by simp [List.zip_cons_cons, hmem])
      have hrec := ih us' (by simpa using hlen) htail
      cases hcr : resolveClass env o fld u with
      | none =>
        have hget := deferred_get_no_class env o fld u hhead.1 hhead.2.1
          hhead.2.2 hcr
        simp [resolveAll, hget, List.isPrefixOf]
      | some c =>
        have hget := deferred_get_resolves env o fld u c hhead.1 hhead.2.1
          hhead.2.2 hcr
        rcases hr : resolveAll env o fs' with ⟨r2, rest2, fs2⟩
        rw [hr] at hrec
        cases r2 with
        | error e => simpa [resolveAll, hget, hr, List.isPrefixOf] using hrec
        | ok vs => simpa [resolveAll, hget, hr, List.isPrefixOf] using hrec

/-- C6: over a toMany field bound to a list of URLs (each element a pending
`DeferredField` holding its own URL under its own per-element name — with
or without a declared related class), indexed access to element `i`
resolves that element alone: the fetch list is exactly the one resolved URL
of element `i` whatever the class-resolution outcome (declared, inferred,
or failed inference), only position `i` of the element list changes, every
sibling `j ≠ i` is untouched, and the returned value is element `i`'s
materialized instance of its resolved class (or the inference failure); and
slice access `[a:b]` fetches only the sliced elements' URLs, and — whenever
each element's class resolution succeeds — resolves and returns exactly the
corresponding ordered sub-sequence. -/
theorem C6_toMany_elements_resolve_independently (env : Env) (o : Owner)
    (dl : List DeferredField) (urls : List String)
    (hlen : dl.length = urls.length)
    (hb : ∀ p ∈ dl.zip urls,
        p.1.inst = Option.none
        ∧ o.dict.lookup p.1.name = some (PyVal.str p.2) ∧ p.2 ≠ "") :
    (∀ i fld u2, dl[i]? = some fld → urls[i]? = some u2 →
       (DeferredList.getitem env dl o i).2.2 = [resolveUrl o u2]
       ∧ (DeferredList.getitem env dl o i).2.1 =
           dl.set i (DeferredField.get env fld o).2.1
       ∧ (∀ j, j ≠ i → (DeferredList.getitem env dl o i).2.1[j]? = dl[j]?)
       ∧ (∀ c, resolveClass env o fld u2 = some c →
           DeferredList.getitem env dl o i =
             (Except.ok (GetVal.res ⟨c, o.base_url, env.http (resolveUrl o u2)⟩),
              dl.set i ⟨fld.opts, fld.name, some c,
                        some ⟨c, o.base_url, env.http (resolveUrl o u2)⟩⟩,
              [resolveUrl o u2]))
       ∧ (resolveClass env o fld u2 = Option.none →
           DeferredList.getitem env dl o i =
             (Except.error Err.typeError,
              dl.set i ⟨fld.opts, fld.name, Option.none, Option.none⟩,
              [resolveUrl o u2])))
    ∧ (∀ a b, ((DeferredList.getslice env dl o a b).2.2).isPrefixOf
        (((urls.drop a).take (b - a)).map fun u2 => resolveUrl o u2) = true)
    ∧ (∀ k : DeferredField → String → ResourceClass,
        (∀ p ∈ dl.zip urls, resolveClass env o p.1 p.2 = some (k p.1 p.2)) →
        ∀ a b, DeferredList.getslice env dl o a b =
          (Except.ok ((((dl.drop a).take (b - a)).zip
                ((urls.drop a).take (b - a))).map
              fun p => GetVal.res
                ⟨k p.1 p.2, o.base_url, env.http (resolveUrl o p.2)⟩),
           dl.take a ++
             (((dl.drop a).take (b - a)).zip ((urls.drop a).take (b - a))).map
               (fun p => ⟨p.1.opts, p.1.name, some (k p.1 p.2),
                          some ⟨k p.1 p.2, o.base_url,
                                env.http (resolveUrl o p.2)⟩⟩) ++
             (dl.drop a).drop (b - a),
           ((urls.drop a).take (b - a)).map fun u2 => resolveUrl o u2)) := by
  have hslice : ∀ a b,
      ((dl.drop a).take (b - a)).length = ((urls.drop a).take (b - a)).length := by
    intro a b
    simp [hlen]
  have hslicezip : ∀ a b,
      ((dl.drop a).take (b - a)).zip ((urls.drop a).take (b - a)) =
        ((dl.zip urls).drop a).take (b - a) := by
    intro a b
    rw [zip_take_eq, zip_drop_eq]
  have hsliceb : ∀ a b, ∀ p ∈ ((dl.drop a).take (b - a)).zip
      ((urls.drop a).take (b - a)),
      p.1.inst = Option.none
      ∧ o.dict.lookup p.1.name = some (PyVal.str p.2) ∧ p.2 ≠ "" := by
    intro a b p hmem
    apply hb
    rw [hslicezip a b] at hmem
    exact List.mem_of_mem_drop (List.mem_of_mem_take hmem)
  refine ⟨?_, ?_, ?_⟩
  · intro i fld u2 hdl hurl
    have hmem : (fld, u2) ∈ dl.zip urls :=
      List.getElem?_mem (zip_getElem?_of_both dl urls i fld u2 hdl hurl)
    have hprops := hb (fld, u2) hmem
    rcases hg : DeferredField.get env fld o with ⟨r, fld2, fsx⟩
    have hitem : DeferredList.getitem env dl o i = (r, dl.set i fld2, fsx) := by
      simp [DeferredList.getitem, hdl, hg]
    have hfx : fsx = [resolveUrl o u2] := by
      have := deferred_get_fetch_exact env o fld u2 hprops.1 hprops.2.1 hprops.2.2
      rw [hg] at this
      exact this
    refine ⟨by rw [hitem, hfx], by simp [hitem, hg], ?_, ?_, ?_⟩
    · intro j hj
      rw [hitem]
      exact List.getElem?_set_ne (Ne.symm hj)
    · intro c hc
      have := deferred_get_resolves env o fld u2 c hprops.1 hprops.2.1
        hprops.2.2 hc
      simp [DeferredList.getitem, hdl, this]
    · intro hc
      have := deferred_get_no_class env o fld u2 hprops.1 hprops.2.1
        hprops.2.2 hc
      simp [DeferredList.getitem, hdl, this]
  · intro a b
    have := resolveAll_fetch_only_own env o ((dl.drop a).take (b - a))
      ((urls.drop a).take (b - a)) (hslice a b) (hsliceb a b)
    rcases hra : resolveAll env o ((dl.drop a).take (b - a)) with ⟨r, mid2, fsx⟩
    rw [hra] at this
    simpa [DeferredList.getslice, hra] using this
  · intro k hk a b
    have hsubk : ∀ p ∈ ((dl.drop a).take (b - a)).zip
        ((urls.drop a).take (b - a)),
        p.1.inst = Option.none
        ∧ o.dict.lookup p.1.name = some (PyVal.str p.2) ∧ p.2 ≠ ""
        ∧ resolveClass env o p.1 p.2 = some (k p.1 p.2) := by
      intro p hmem
      have hmem2 : p ∈ dl.zip urls := by
        rw [hslicezip a b] at hmem
        exact List.mem_of_mem_drop (List.mem_of_mem_take hmem)
      have h1 := hb p hmem2
      exact ⟨h1.1, h1.2.1, h1.2.2, hk p hmem2⟩
    have hres := resolveAll_spec env o k _ _ (hslice a b) hsubk
    simp [DeferredList.getslice, hres]

theorem charListLe_total : ∀ a b : List Char,
    charListLe a b = true ∨ charListLe b a = true := by
  intro a
  induction a with
  | nil => intro b; left; cases b <;> rfl
  | cons x xs ih =>
    intro b
    cases b with
    | nil => right; rfl
    | cons y ys =>
      rcases lt_trichotomy x y with hlt | heq | hgt
      · left; simp [charListLe, hlt]
      · subst heq
        rcases ih ys with h | h
        · left; simp [charListLe, lt_irrefl, h]
        · right; simp [charListLe, lt_irrefl, h]
      · right; simp [charListLe, hgt]

theorem charListLe_trans : ∀ a b c : List Char,
    charListLe a b = true → charListLe b c = true → charListLe a c = true := by
  intro a
  induction a with
  | nil => intro b c _ _; cases c <;> rfl
  | cons x xs ih =>
    intro b c h1 h2
    cases b with
    | nil => simp [charListLe] at h1
    | cons y ys =>
      cases c with
      | nil => simp [charListLe] at h2
      | cons z zs =>
        simp only [charListLe] at h1 h2 ⊢
        rcases lt_trichotomy x y with hxy | hxy | hxy
        · rcases lt_trichotomy y z with hyz | hyz | hyz
          · simp [lt_trans hxy hyz]
          · subst hyz; simp [hxy]
          · simp [hyz, asymm hyz] at h2
        · subst hxy
          rcases lt_trichotomy x z with hyz | hyz | hyz
          · simp [hyz]
          · subst hyz
            simp [lt_irrefl] at h1 h2 ⊢
            exact ih ys zs h1 h2
          · simp [hyz, asymm hyz] at h2
        · simp [hxy, asymm hxy] at h1

theorem charListLe_antisymm : ∀ a b : List Char,
    charListLe a b = true → charListLe b a = true → a = b := by
  intro a
  induction a with
  | nil =>
    intro b _ h2
    cases b with
    | nil => rfl
    | cons y ys => simp [charListLe] at h2
  | cons x xs ih =>
    intro b h1 h2
    cases b with
    | nil => simp [charListLe] at h1
    | cons y ys =>
      simp only [charListLe] at h1 h2
      rcases lt_trichotomy x y with hxy | hxy | hxy
      · simp [hxy, asymm hxy] at h2
      · subst hxy
        simp [lt_irrefl] at h1 h2
        rw [ih ys h1 h2]
      · simp [hxy, asymm hxy] at h1

theorem strLe_antisymm (a b : String) (h1 : strLe a b = true)
    (h2 : strLe b a = true) : a = b :=
  String.ext (charListLe_antisymm a.data b.data h1 h2)

/-- Two sorted association lists with the same (duplicate-free-keyed)
contents are equal: sortedness pins each position. -/
theorem sorted_assoc_unique :
    ∀ (l1 l2 : List (String × GenField)),
      l1.Perm l2 →
      l1.Pairwise (fun p q => strLe p.1 q.1 = true) →
      l2.Pairwise (fun p q => strLe p.1 q.1 = true) →
      (l1.map Prod.fst).Nodup →
      l1 = l2 := by
  intro l1
  induction l1 with
  | nil =>
    intro l2 hperm _ _ _
    exact (List.Perm.nil_eq hperm).symm.symm
  | cons a t1 ih =>
    intro l2 hperm hs1 hs2 hnd
    cases l2 with
    | nil => exact absurd (List.Perm.nil_eq hperm.symm) (by simp)
    | cons b t2 =>
      have hab : a = b := by
        by_cases heq : a = b
        · exact heq
        · have hamem : a ∈ b :: t2 := hperm.mem_iff.mp (by simp)
          have hbmem : b ∈ a :: t1 := hperm.mem_iff.mpr (by simp)
          have hat2 : a ∈ t2 := by
            rcases List.mem_cons.mp hamem with h | h
            · exact absurd h heq
            · exact h
          have hbt1 : b ∈ t1 := by
            rcases List.mem_cons.mp hbmem with h | h
            · exact absurd h.symm heq
            · exact h
          have hba : strLe b.1 a.1 = true :=
            (List.pairwise_cons.mp hs2).1 a hat2
          have hab2 : strLe a.1 b.1 = true :=
            (List.pairwise_cons.mp hs1).1 b hbt1
          have hkey : a.1 = b.1 := strLe_antisymm a.1 b.1 hab2 hba
          have : a.1 ∉ t1.map Prod.fst := (List.nodup_cons.mp (by simpa using hnd)).1
          exact absurd (hkey ▸ List.mem_map_of_mem Prod.fst hbt1) this
      subst hab
      have htails : t1.Perm t2 := hperm.cons_inv
      have := ih t2 htails (List.pairwise_cons.mp hs1).2
        (List.pairwise_cons.mp hs2).2 (List.nodup_cons.mp (by simpa using hnd)).2
      rw [this]

/-- C9: the generator is deterministic — the module text of a run depends
only on the `ResourceSchema` set (the generation timestamp appears only in
the output filename), and within each resource the field declarations are
iterated in lexicographic field-name order, whatever order the source
schema document presented the fields in (any permutation of a resource's
field items yields the identical sorted field list and identical resource
text). -/
theorem C9_generator_deterministic (nm ts1 ts2 : String)
    (resources : List GenSchema) (f1 f2 : List (String × GenField))
    (hp : f1.Perm f2) (hnd : (f1.map Prod.fst).Nodup) :
    (generate_client nm ts1 resources).2 = (generate_client nm ts2 resources).2
    ∧ (generate_client nm ts1 resources).1 = nm ++ ".py." ++ ts1
    ∧ field_list f1 = field_list f2
    ∧ (field_list f1).Pairwise (fun p q => strLe p.1 q.1 = true)
    ∧ (∀ rn le2 df dlim, writeResource ⟨rn, le2, df, dlim, f1⟩ =
        writeResource ⟨rn, le2, df, dlim, f2⟩) := by
  haveI hTot : IsTotal (String × GenField) (fun p q => strLe p.1 q.1 = true) :=
    ⟨fun p q => charListLe_total p.1.data q.1.data⟩
  haveI hTrans : IsTrans (String × GenField) (fun p q => strLe p.1 q.1 = true) :=
    ⟨fun p q r h1 h2 => charListLe_trans p.1.data q.1.data r.1.data h1 h2⟩
  have hsorted1 : (field_list f1).Pairwise (fun p q => strLe p.1 q.1 = true) :=
    List.sorted_insertionSort _ f1
  have hsorted2 : (field_list f2).Pairwise (fun p q => strLe p.1 q.1 = true) :=
    List.sorted_insertionSort _ f2
  have heq : field_list f1 = field_list f2 := by
    apply sorted_assoc_unique
    · exact (List.perm_insertionSort _ f1).trans
        (hp.trans (List.perm_insertionSort _ f2).symm)
    · exact hsorted1
    · exact hsorted2
    · have hfp : (field_list f1).Perm f1 := List.perm_insertionSort _ f1
      exact ((hfp.map Prod.fst).nodup_iff).mpr hnd
  refine ⟨rfl, rfl, heq, hsorted1, ?_⟩
  intro rn le2 df dlim
  simp only [writeResource, heq]

/-- C9 witness: two field items presented in either order sort to the same
lexicographic list and generate identical resource text; the filename
carries the timestamp. -/
theorem C9_generator_deterministic_witness :
    ([("beta", genB), ("alpha", genA)] : List (String × GenField)).Perm
      [("alpha", genA), ("beta", genB)]
    ∧ ((([("beta", genB), ("alpha", genA)] : List (String × GenField)).map
        Prod.fst).Nodup)
    ∧ ((generate_client "myservice" "100" []).2 = (generate_client "myservice" "200" []).2
      ∧ (generate_client "myservice" "100" []).1 = "myservice" ++ ".py." ++ "100"
      ∧ field_list [("beta", genB), ("alpha", genA)] =
          field_list [("alpha", genA), ("beta", genB)]
      ∧ (field_list [("beta", genB), ("alpha", genA)]).Pairwise
          (fun p q => strLe p.1 q.1 = true)
      ∧ (∀ rn le2 df dlim,
          writeResource ⟨rn, le2, df, dlim, [("beta", genB), ("alpha", genA)]⟩ =
            writeResource ⟨rn, le2, df, dlim, [("alpha", genA), ("beta", genB)]⟩)) :=
  ⟨by decide, by decide,
   C9_generator_deterministic "myservice" "100" "200" []
     [("beta", genB), ("alpha", genA)] [("alpha", genA), ("beta", genB)]
     (by decide) (by decide)⟩

/-- C6 witness: binding `posts` — a toMany field with *no* declared related
class, the shape the generator emits — to two post URLs through
`ToManyField.__set__` produces exactly the bound state the theorem
describes, and the conclusions hold at that state (each element's class is
then registry-inferred on access). -/
theorem C6_toMany_elements_resolve_independently_witness :
    (ToManyField.set tmDemo tmOwner0
        (PyVal.list [PyVal.str "/api/v1/post/1/", PyVal.str "/api/v1/post/2/"]) =
      (Except.ok (), tmOwner1)
     ∧ tmOwner1.dict.lookup "posts" = some (PyVal.deflist tmFields)
     ∧ tmFields.length = (["/api/v1/post/1/", "/api/v1/post/2/"] : List String).length
     ∧ (∀ p ∈ tmFields.zip ["/api/v1/post/1/", "/api/v1/post/2/"],
         p.1.inst = Option.none
         ∧ tmOwner1.dict.lookup p.1.name = some (PyVal.str p.2) ∧ p.2 ≠ ""))
    ∧ ((∀ i fld u2, tmFields[i]? = some fld →
          (["/api/v1/post/1/", "/api/v1/post/2/"] : List String)[i]? = some u2 →
          (DeferredList.getitem demoEnv tmFields tmOwner1 i).2.2 =
            [resolveUrl tmOwner1 u2]
          ∧ (DeferredList.getitem demoEnv tmFields tmOwner1 i).2.1 =
              tmFields.set i (DeferredField.get demoEnv fld tmOwner1).2.1
          ∧ (∀ j, j ≠ i →
              (DeferredList.getitem demoEnv tmFields tmOwner1 i).2.1[j]? =
                tmFields[j]?)
          ∧ (∀ c, resolveClass demoEnv tmOwner1 fld u2 = some c →
              DeferredList.getitem demoEnv tmFields tmOwner1 i =
                (Except.ok (GetVal.res
                    ⟨c, tmOwner1.base_url, demoEnv.http (resolveUrl tmOwner1 u2)⟩),
                 tmFields.set i ⟨fld.opts, fld.name, some c,
                   some ⟨c, tmOwner1.base_url, demoEnv.http (resolveUrl tmOwner1 u2)⟩⟩,
                 [resolveUrl tmOwner1 u2]))
          ∧ (resolveClass demoEnv tmOwner1 fld u2 = Option.none →
              DeferredList.getitem demoEnv tmFields tmOwner1 i =
                (Except.error Err.typeError,
                 tmFields.set i ⟨fld.opts, fld.name, Option.none, Option.none⟩,
                 [resolveUrl tmOwner1 u2])))
      ∧ (∀ a b, ((DeferredList.getslice demoEnv tmFields tmOwner1 a b).2.2).isPrefixOf
          ((((["/api/v1/post/1/", "/api/v1/post/2/"] : List String).drop a).take (b - a)).map
            (fun u2 => resolveUrl tmOwner1 u2)) = true)
      ∧ (∀ k : DeferredField → String → ResourceClass,
          (∀ p ∈ tmFields.zip ["/api/v1/post/1/", "/api/v1/post/2/"],
            resolveClass demoEnv tmOwner1 p.1 p.2 = some (k p.1 p.2)) →
          ∀ a b, DeferredList.getslice demoEnv tmFields tmOwner1 a b =
            (Except.ok ((((tmFields.drop a).take (b - a)).zip
                  (((["/api/v1/post/1/", "/api/v1/post/2/"] : List String).drop a).take (b - a))).map
                fun p => GetVal.res
                  ⟨k p.1 p.2, tmOwner1.base_url, demoEnv.http (resolveUrl tmOwner1 p.2)⟩),
             tmFields.take a ++
               (((tmFields.drop a).take (b - a)).zip
                  (((["/api/v1/post/1/", "/api/v1/post/2/"] : List String).drop a).take (b - a))).map
                 (fun p => ⟨p.1.opts, p.1.name, some (k p.1 p.2),
                            some ⟨k p.1 p.2, tmOwner1.base_url,
                                  demoEnv.http (resolveUrl tmOwner1 p.2)⟩⟩) ++
               (tmFields.drop a).drop (b - a),
             (((["/api/v1/post/1/", "/api/v1/post/2/"] : List String).drop a).take (b - a)).map
               fun u2 => resolveUrl tmOwner1 u2))) :=
  ⟨⟨rfl, rfl, rfl, by
      intro p hmem
      simp [tmFields, List.zip_cons_cons] at hmem
      rcases hmem with h | h <;> subst h <;> exact ⟨rfl, rfl, by decide⟩⟩,
   C6_toMany_elements_resolve_independently demoEnv tmOwner1 tmFields
     ["/api/v1/post/1/", "/api/v1/post/2/"] rfl
     (by
      intro p hmem
      simp [tmFields, List.zip_cons_cons] at hmem
      rcases hmem with h | h <;> subst h <;> exact ⟨rfl, rfl, by decide⟩)⟩
